import Mathlib

/-!
Shallow embedding of `src/by_isp_coverage/validators.py` (ISP coverage
address-record validation pipeline).

Strings are modelled as `List Char` wrapped in `String`; all operations are
defined on `List Char`.  Character classes follow the Python `regex` module
restricted to the alphabet actually processed by this program (ASCII plus
Cyrillic): `\d` and `str.isdecimal` are modelled as ASCII `0-9`, `\s` as the
six ASCII whitespace characters, `\w` as ASCII alphanumerics, underscore and
the Cyrillic block U+0400–U+04FF.
-/

namespace IspCoverage

/-- Character class for the regex `\s` (ASCII whitespace). -/
def isSpaceClass (c : Char) : Bool :=
  c = ' ' || c = '\t' || c = '\n' || c = '\r' || c = '\x0b' || c = '\x0c'

/-- Cyrillic block U+0400–U+04FF (covers all letters this program sees). -/
def isCyrillic (c : Char) : Bool :=
  0x400 ≤ c.toNat && c.toNat ≤ 0x4FF

/-- Character class for the regex `\w` with the UNICODE flag, restricted to
the program's alphabet: ASCII alphanumerics, underscore, Cyrillic letters. -/
def isWordChar (c : Char) : Bool :=
  c.isAlphanum || c = '_' || isCyrillic c

/-- Cased letter (a letter which `str.lower` / `str.title` can change):
ASCII or Cyrillic letters. -/
def isCasedLetter (c : Char) : Bool :=
  c.isAlpha || isCyrillic c

/-- Lower-case one character, for ASCII and the Cyrillic block
(А..Я → а..я, Ё → ё). -/
def lowerChar (c : Char) : Char :=
  if c.isUpper then c.toLower
  else if 0x410 ≤ c.toNat && c.toNat ≤ 0x42F then Char.ofNat (c.toNat + 0x20)
  else if c.toNat = 0x401 then Char.ofNat 0x451
  else c

/-- Upper-case one character, for ASCII and the Cyrillic block
(а..я → А..Я, ё → Ё). -/
def upperChar (c : Char) : Char :=
  if c.isLower then c.toUpper
  else if 0x430 ≤ c.toNat && c.toNat ≤ 0x44F then Char.ofNat (c.toNat - 0x20)
  else if c.toNat = 0x451 then Char.ofNat 0x401
  else c

/-- Python `str.lower()`. -/
def pyLower (s : List Char) : List Char := s.map lowerChar

/-- Python `str.title()` on a list of characters: a cased letter is
upper-cased when the previous character is not cased, lower-cased otherwise.
The boolean argument records whether the previous character was cased. -/
def pyTitleGo : Bool → List Char → List Char
  | _, [] => []
  | prevCased, c :: rest =>
    let cased := isCasedLetter c
    let c' := if cased then (if prevCased then lowerChar c else upperChar c) else c
    c' :: pyTitleGo cased rest

/-- Python `str.title()`. -/
def pyTitle (s : List Char) : List Char := pyTitleGo false s

/-- Python `str.strip()` (with ASCII whitespace). -/
def pyStrip (s : List Char) : List Char :=
  ((s.dropWhile isSpaceClass).reverse.dropWhile isSpaceClass).reverse

/-- Python `str.isdecimal()` (all characters decimal digits, nonempty). -/
def pyIsdecimal (s : List Char) : Bool :=
  !s.isEmpty && s.all Char.isDigit

/-- Python `old in s` (substring containment) for lists of characters. -/
def pyContains (old : List Char) : List Char → Bool
  | [] => old.isEmpty
  | c :: rest => old.isPrefixOf (c :: rest) || pyContains old rest

/-- Python `s.endswith(suf)`. -/
def pyEndswith (s suf : List Char) : Bool :=
  suf.isSuffixOf s

/-- Fuel-driven scan for `pyReplace` (structural recursion on the fuel so the
function reduces definitionally); the fuel never runs out when it starts at
the length of the scanned list. -/
def pyReplaceGo (old new : List Char) : Nat → List Char → List Char
  | _, [] => []
  | 0, s => s
  | fuel + 1, c :: rest =>
    if old.isPrefixOf (c :: rest) && !old.isEmpty then
      new ++ pyReplaceGo old new fuel ((c :: rest).drop old.length)
    else
      c :: pyReplaceGo old new fuel rest

/-- Python `s.replace(old, new)` for a nonempty `old`: scan left to right,
replace non-overlapping occurrences, never rescanning the replacement. -/
def pyReplace (old new s : List Char) : List Char :=
  pyReplaceGo old new s.length s

/-- Python `s.split(",")` helper: `acc` holds the current segment reversed. -/
def splitCommaGo : List Char → List Char → List (List Char)
  | acc, [] => [acc.reverse]
  | acc, c :: rest =>
    if c = ',' then acc.reverse :: splitCommaGo [] rest
    else splitCommaGo (c :: acc) rest

/-- Python `s.split(",")`. -/
def pySplitComma (s : List Char) : List (List Char) := splitCommaGo [] s

/-! Data model: the `Connection` record (external collaborator
`by_isp_coverage.connection`, a value type with six text fields and the
`from_modified_connection` copy-with-override constructor). -/

/-- Modelled from the spec: `ConnectionRecord` is a value type with fields
region, city, street, provider, house, status (all text), with structural
equality; the source module `connection.py` is outside `src/`. -/
structure Connection where
  region : String
  city : String
  street : String
  provider : String
  house : String
  status : String
deriving DecidableEq

/-- Names of the six record fields. -/
inductive FieldName where
  | region | city | street | provider | house | status
deriving DecidableEq

/-- Python `getattr(c, field)` for the six record fields. -/
def getField (c : Connection) : FieldName → String
  | .region => c.region
  | .city => c.city
  | .street => c.street
  | .provider => c.provider
  | .house => c.house
  | .status => c.status

/-- Modelled from the spec: `Connection.from_modified_connection(c, **{field: v})`
(the copy-with-override constructor of `connection.py`, outside `src/`):
all unspecified fields are copied verbatim. -/
def from_modified_connection (c : Connection) (f : FieldName) (v : String) : Connection :=
  match f with
  | .region => { c with region := v }
  | .city => { c with city := v }
  | .street => { c with street := v }
  | .provider => { c with provider := v }
  | .house => { c with house := v }
  | .status => { c with status := v }

/-- Result of a field validation strategy for one candidate value: either a
bare replacement value, or a (value, mutation callback) pair (the Python code
detects the pair shape with try/except on `f[1]`; the net effect is this sum
type). -/
inductive VResult where
  | plain (v : String)
  | withCallback (v : String) (cb : Connection → Connection)

/-- Source `CITY_PARTS_TO_EXCLUDE` tuple, in source order. -/
def CITY_PARTS_TO_EXCLUDE : List String :=
  ["д.г.п.", "п.г.т", "аг.", "г.п.", "агр.", "д.", "г.", "п.", "к."]

/-- Delimiter class of `RE_BUILDING_NUMBER` (dash, slash or whitespace). -/
def isDelimClass (c : Char) : Bool :=
  c = '-' || c = '/' || isSpaceClass c

/-- Anchored match of source `RE_BUILDING_NUMBER`: a digit run `house_number`
(`\d+`), an optional comma, a delimiter (either a run of dash, slash and
whitespace characters, or a space, `к` or `К`, a dot and an optional space),
then a word-character run `building` (`\w+`) reaching the end of the string;
it returns the `house_number` and `building` groups.  The backtracking search
is determinized: `\d+` can always take the maximal digit run (a shorter run
leaves a digit that neither `,?` nor the delimiter can consume, so `building`
would have to cover it, which succeeds exactly when the maximal run does,
except on all-digit strings, which the caller filters out via `isdecimal`);
the `,?` and the delimiter must consume every comma/delimiter character
before `building` (none of those characters is in `\w`); the second delimiter
alternative is tried only after the first fails. -/
def matchBuildingNumber (s : List Char) : Option (List Char × List Char) :=
  let house_number := s.takeWhile Char.isDigit
  let r0 := s.dropWhile Char.isDigit
  if house_number.isEmpty then none
  else
    let r1 := match r0 with
      | ',' :: t => t
      | _ => r0
    let b1 := r1.dropWhile isDelimClass
    if !b1.isEmpty && b1.all isWordChar then some (house_number, b1)
    else
      match r1 with
      | ' ' :: k :: '.' :: t =>
        if k = 'к' || k = 'К' then
          let b2 := match t with
            | ' ' :: t2 => t2
            | _ => t
          if !b2.isEmpty && b2.all isWordChar then some (house_number, b2) else none
        else none
      | _ => none

/-- Source `is_for_artificial_person`. -/
def is_for_artificial_person (house_str : List Char) : Bool :=
  let s := pyLower house_str
  pyContains "юр. лица".data s || pyContains "юридические лица".data s

/-- Source `status_update_callback` (closure inside `validate_house_field`):
appends the artificial-person marker to the status of the derived record. -/
def status_update_callback (c : Connection) : Connection :=
  { c with status := c.status ++ " (юридические лица)" }

/-- Source `ConnectionValidator.validate_house_field`. -/
def validate_house_field (house : String) : List VResult :=
  if pyIsdecimal house.data then [.plain house]
  else
    match matchBuildingNumber house.data with
    | some (house_number, building) =>
      [.plain ⟨house_number ++ " (корпус ".data ++ building ++ [')']⟩]
    | none =>
      if is_for_artificial_person house.data then
        let h1 := pyReplace "(юридические лица)".data [] house.data
        let h2 := pyReplace "ЮР. ЛИЦА".data [] h1
        let h3 := pyReplace "юр. лица".data [] h2
        [.withCallback ⟨pyStrip h3⟩ status_update_callback]
      else if pyContains [','] house.data then
        let h := pyReplace [' '] [] house.data
        ((pySplitComma h).filter (fun seg => !seg.isEmpty)).map (fun seg => .plain ⟨seg⟩)
      else [.plain house]

/-- Source `ConnectionValidator.validate_city_field`. -/
def validate_city_field (city : String) : List VResult :=
  let c0 := if pyEndswith city.data " п".data then pyReplace " п".data [] city.data
            else city.data
  let c1 := CITY_PARTS_TO_EXCLUDE.foldl
    (fun c part => if pyContains part.data c then pyReplace part.data [] c else c) c0
  let c2 := pyTitle (pyLower c1)
  [.plain ⟨pyStrip c2⟩]

/-- Source `ConnectionValidator.validate_status_field`. -/
def validate_status_field (status : String) : List VResult := [.plain status]

/-- Source `ConnectionValidator.validate_region_field`. -/
def validate_region_field (region : String) : List VResult := [.plain region]

/-- Source `ConnectionValidator.validate_provider_field`. -/
def validate_provider_field (provider : String) : List VResult := [.plain provider]

/-! Toponym parser. -/

/-- Source `Toponym.MANUAL_MAP` (exact-string override table). -/
def MANUAL_MAP : List (String × (String × String)) :=
  [("3ий пер Волчецкого", ("переулок", "3-й Волчецкого")),
   ("А/Г ЛЕСНОЙ АЛЕКСАНДРОВА УЛ.", ("улица", "Александрова (агрогородок Лесной)"))]

/-- Source `Toponym.TYPE_MAP`: each compiled pattern is an ordered alternation
of literal strings (matched case-insensitively), paired with its type label. -/
def TYPE_MAP : List (List String × String) :=
  [(["прз.", "пр-д", "проезд"], "проезд"),
   (["пос.", "поселок"], "поселок"),
   (["мр-н", "микрорайон"], "микрорайон"),
   (["а/г"], "агрогородок"),
   (["переулок", "пер."], "переулок"),
   (["б-р", "бул.", "бульвар"], "бульвар"),
   (["ул,", ", ул.", ", ул", "ул.", "улица"], "улица"),
   (["проспект", "пр-кт", "пр-т", "пр."], "проспект")]

/-- Case-insensitive prefix test (both sides lowered character-wise), used to
match one literal alternative at the head of the text. -/
def ciStartsWith : List Char → List Char → Bool
  | [], _ => true
  | _ :: _, [] => false
  | a :: as, b :: bs => lowerChar a = lowerChar b && ciStartsWith as bs

/-- First alternative of the alternation matching at the head of `s`; returns
the length of the matched span.  Python regex alternation is ordered: at a
given position the leftmost alternative wins. -/
def firstAltAt (alts : List (List Char)) (s : List Char) : Option Nat :=
  match alts with
  | [] => none
  | a :: rest => if ciStartsWith a s then some a.length else firstAltAt rest s

/-- Python `pattern.search(s)` for an alternation of literals: the leftmost
position at which some alternative matches wins, and the matched text (the
span of `s`, original casing) is returned. -/
def searchAlternation (alts : List (List Char)) : List Char → Option (List Char)
  | [] => none
  | c :: rest =>
    match firstAltAt alts (c :: rest) with
    | some n => some ((c :: rest).take n)
    | none => searchAlternation alts rest

/-- Scan of `Toponym.TYPE_MAP` rules in order: the first rule whose pattern
matches wins; returns its type label and the matched text. -/
def scanTypeMap : List (List String × String) → List Char → Option (String × List Char)
  | [], _ => none
  | (alts, label) :: rest, name =>
    match searchAlternation (alts.map String.data) name with
    | some t => some (label, t)
    | none => scanTypeMap rest name

/-- Source `Toponym._extract_type_and_name`: on a match, every occurrence of
the matched text is removed (`name.replace(matched, "")`) and the result is
stripped; otherwise the type is `none` and the name is the stripped input. -/
def extract_type_and_name (name : List Char) : Option String × List Char :=
  match scanTypeMap TYPE_MAP name with
  | some (label, t) => (some label, pyStrip (pyReplace t [] name))
  | none => (none, pyStrip name)

/-- Source `Toponym._normalize_name` (`name.title()`). -/
def normalize_name (name : List Char) : List Char := pyTitle name

/-- Exact-key lookup in `MANUAL_MAP` (`name in self.MANUAL_MAP`). -/
def lookupManual (s : String) : Option (String × String) :=
  (MANUAL_MAP.find? (fun p => p.1 = s)).map Prod.snd

/-- Toponym value: original string, resolved type, normalized name.  The
resolved type is `Option String` because `_extract_type_and_name` can return
`None`; `tokenize` substitutes the default before storing it. -/
structure Toponym where
  original_str : String
  type : Option String
  name : String
deriving DecidableEq

/-- Source `Toponym.tokenize`: manual-map hit bypasses extraction and
normalization; otherwise the extracted type (default type when `None`) and
the normalized extracted name are used. -/
def Toponym.tokenize (s : String) (default_type : String) : Option String × String :=
  match lookupManual s with
  | some (t, n) => (some t, n)
  | none =>
    let tn := extract_type_and_name s.data
    let t := match tn.1 with
      | none => some default_type
      | some t => some t
    (t, ⟨normalize_name tn.2⟩)

/-- Source `Toponym.__init__`: stores the original string and tokenizes. -/
def Toponym.build (s : String) (default_type : String) : Toponym :=
  let tn := Toponym.tokenize s default_type
  { original_str := s, type := tn.1, name := tn.2 }

/-- Python rendering of a value inside `str.format` (an `Option` renders its
payload, `None` renders as the text `None`). -/
def pyFormatOpt : Option String → String
  | none => "None"
  | some t => t

/-- Source `Toponym.format`: renders as `type SP name`. -/
def Toponym.fmt (t : Toponym) : String :=
  pyFormatOpt t.type ++ " " ++ t.name

/-- Source `ConnectionValidator.validate_street_field`. -/
def validate_street_field (street : String) : List VResult :=
  [.plain (Toponym.fmt (Toponym.build street "улица"))]

/-! Validation orchestrator. -/

/-- Default field tuple of `ConnectionValidator.__init__`. -/
def default_fields : List String :=
  ["house", "provider", "region", "city", "street", "status"]

/-- Source `ConnectionValidator` state: the constructor accepts only the
`fields` list (defaulting to `default_fields`); it accepts no street
replacement maps. -/
structure ConnectionValidator where
  fields : List String := default_fields
deriving DecidableEq

/-- Python exception value raised by the orchestrator.  The code only ever
raises `AttributeError` (from `getattr`); `ConfigurationError` is the error
class named by the specification, defined in no module of this repository. -/
inductive PyError where
  | attributeError (name : String)
  | configurationError (msg : String)
deriving DecidableEq

/-- Strategy method lookup by field name
(`getattr(self, "validate_{}_field".format(field))`): each of the six field
names resolves to its method; any other name raises `AttributeError`. -/
def fieldOfName (field : String) : Option FieldName :=
  if field = "region" then some .region
  else if field = "city" then some .city
  else if field = "street" then some .street
  else if field = "provider" then some .provider
  else if field = "house" then some .house
  else if field = "status" then some .status
  else none

/-- Strategy method for a resolved field name. -/
def strategyFor : FieldName → String → List VResult
  | .region => validate_region_field
  | .city => validate_city_field
  | .street => validate_street_field
  | .provider => validate_provider_field
  | .house => validate_house_field
  | .status => validate_status_field

/-- One candidate result applied to one parent record: a bare value yields
`from_modified_connection`; a (value, callback) pair builds the new record
with the field overridden and then runs the callback on that new record. -/
def applyResult (c : Connection) (f : FieldName) : VResult → Connection
  | .plain v => from_modified_connection c f v
  | .withCallback v cb => cb (from_modified_connection c f v)

/-- Per-field pass of `ConnectionValidator.__validate_field` for a resolved
field: each record's field value runs through the strategy and every
candidate yields one derived record. -/
def validateFieldPass (conns : List Connection) (f : FieldName) : List Connection :=
  conns.flatMap (fun c => (strategyFor f (getField c f)).map (applyResult c f))

/-- Source `ConnectionValidator.__validate_field` dispatching by field-name
string: an unknown name fails with `AttributeError` from `getattr` (before
any record is processed). -/
def validate_field (conns : List Connection) (field : String) :
    Except PyError (List Connection) :=
  match fieldOfName field with
  | none => .error (.attributeError ("validate_" ++ field ++ "_field"))
  | some f => .ok (validateFieldPass conns f)

/-- Field passes composed left to right
(`for f in self.fields: connections = self.__validate_field(connections, f)`). -/
def runFields (conns : List Connection) : List String → Except PyError (List Connection)
  | [] => .ok conns
  | f :: rest =>
    match validate_field conns f with
    | .error e => .error e
    | .ok cs => runFields cs rest

/-- Source `ConnectionValidator.validate_connections`. -/
def ConnectionValidator.validate_connections (v : ConnectionValidator)
    (conns : List Connection) : Except PyError (List Connection) :=
  runFields conns v.fields

/-! Helper lemmas. -/

/-- Replacement of a single character by nothing is a filter, at any
sufficient fuel. -/
theorem pyReplaceGo_single_eq_filter (a : Char) :
    ∀ (fuel : Nat) (s : List Char), s.length ≤ fuel →
      pyReplaceGo [a] [] fuel s = s.filter (fun c => ¬(c = a)) := by
  intro fuel
  induction fuel with
  | zero =>
    intro s hs
    rw [Nat.le_zero, List.length_eq_zero] at hs
    subst hs; rfl
  | succ n ih =>
    intro s hs
    cases s with
    | nil => rfl
    | cons c rest =>
      simp only [List.length_cons, Nat.succ_le_succ_iff] at hs
      by_cases hca : c = a
      · subst hca
        simp [pyReplaceGo, List.isPrefixOf, ih rest hs]
      · simp [pyReplaceGo, List.isPrefixOf, ih rest hs, hca,
          show ¬(a = c) from fun h => hca h.symm]

/-- Source-level corollary: `s.replace(a, "")` for a one-character pattern
filters that character out. -/
theorem pyReplace_single_eq_filter (a : Char) (s : List Char) :
    pyReplace [a] [] s = s.filter (fun c => ¬(c = a)) :=
  pyReplaceGo_single_eq_filter a s.length s (Nat.le_refl _)

/-- The comma-splitting scanner agrees with `List.splitOn ','`, with the
accumulator prepended to the first segment. -/
theorem splitCommaGo_eq_splitOn (s : List Char) :
    ∀ acc, splitCommaGo acc s = (s.splitOn ',').modifyHead (acc.reverse ++ ·) := by
  induction s with
  | nil => intro acc; simp [splitCommaGo, List.splitOn]
  | cons c rest ih =>
    intro acc
    by_cases hc : c = ','
    · subst hc
      simp only [splitCommaGo, if_pos rfl, List.splitOn, List.splitOnP_cons,
        beq_self_eq_true, if_pos, List.modifyHead_cons]
      rw [ih []]
      simp only [List.reverse_nil, List.nil_append, List.splitOn, List.append_nil]
      exact congrArg (List.cons _) (congrFun List.modifyHead_id _)
    · simp only [splitCommaGo, if_neg hc, List.splitOn, List.splitOnP_cons]
      rw [if_neg (by simp [hc]), ih (c :: acc), List.modifyHead_modifyHead]
      congr 1
      funext x
      simp

/-- Python `s.split(",")` agrees with `List.splitOn ','`. -/
theorem pySplitComma_eq_splitOn (s : List Char) : pySplitComma s = s.splitOn ',' := by
  rw [pySplitComma, splitCommaGo_eq_splitOn s []]
  cases h : s.splitOn ','
  · exact absurd h (List.splitOnP_ne_nil _ s)
  · simp

/-- Containment of a single-character pattern follows from membership. -/
theorem pyContains_single_of_mem (p : Char) (s : List Char) (hp : p ∈ s) :
    pyContains [p] s = true := by
  induction s with
  | nil => cases hp
  | cons c rest ih =>
    rcases List.mem_cons.mp hp with h | h
    · subst h; simp [pyContains, List.isPrefixOf]
    · simp [pyContains, ih h]

/-- A pattern whose first character appears nowhere in the text is not
contained in it. -/
theorem pyContains_eq_false_of_head_notin (p : Char) (pat s : List Char)
    (hs : ∀ c ∈ s, ¬(c = p)) : pyContains (p :: pat) s = false := by
  induction s with
  | nil => rfl
  | cons c rest ih =>
    have hcp : (p == c) = false :=
      beq_eq_false_iff_ne.mpr (fun h => hs c (List.mem_cons_self c rest) h.symm)
    simp only [pyContains, List.isPrefixOf, hcp, Bool.false_and, Bool.false_or]
    exact ih (fun d hd => hs d (List.mem_cons_of_mem _ hd))

/-- Copy-with-override leaves every other field unchanged. -/
theorem getField_from_modified_of_ne (c : Connection) (f : FieldName) (v : String)
    (g : FieldName) (hg : g ≠ f) :
    getField (from_modified_connection c f v) g = getField c g := by
  cases f <;> cases g <;> first | rfl | exact absurd rfl hg

/-- Copy-with-override sets the overridden field. -/
theorem getField_from_modified_self (c : Connection) (f : FieldName) (v : String) :
    getField (from_modified_connection c f v) f = v := by
  cases f <;> rfl

/-- The status-update callback leaves every field other than status
unchanged. -/
theorem getField_status_update_of_ne (c : Connection) (g : FieldName)
    (hg : g ≠ .status) :
    getField (status_update_callback c) g = getField c g := by
  cases g <;> first | rfl | exact absurd rfl hg

/-- Every candidate produced by a field strategy is either a bare value, or —
only for the house field — a pair carrying the status-update callback. -/
theorem strategy_shape (f : FieldName) (s : String) (r : VResult)
    (hr : r ∈ strategyFor f s) :
    (∃ v, r = .plain v) ∨
      (f = .house ∧ ∃ v, r = .withCallback v status_update_callback) := by
  cases f
  case region | city | street | provider | status =>
    simp only [strategyFor, validate_region_field, validate_city_field,
      validate_street_field, validate_provider_field, validate_status_field,
      List.mem_singleton] at hr
    all_goals exact Or.inl ⟨_, hr⟩
  case house =>
    simp only [strategyFor, validate_house_field] at hr
    split at hr
    · exact Or.inl ⟨_, List.mem_singleton.mp hr⟩
    · split at hr
      · exact Or.inl ⟨_, List.mem_singleton.mp hr⟩
      · split at hr
        · exact Or.inr ⟨rfl, _, List.mem_singleton.mp hr⟩
        · split at hr
          · rcases List.mem_map.mp hr with ⟨seg, _, hseg⟩
            exact Or.inl ⟨_, hseg.symm⟩
          · exact Or.inl ⟨_, List.mem_singleton.mp hr⟩

/-- A string containing a comma is not decimal. -/
theorem pyIsdecimal_eq_false_of_comma_mem (s : List Char) (hc : ',' ∈ s) :
    pyIsdecimal s = false := by
  have hall : s.all Char.isDigit = false := by
    rcases h : s.all Char.isDigit
    · rfl
    · exact absurd (List.all_eq_true.mp h ',' hc) (by decide)
  simp [pyIsdecimal, hall]

/-- A string of commas and spaces cannot match the building-number pattern:
its leading digit run is empty. -/
theorem matchBuildingNumber_eq_none_of_commas (s : List Char)
    (hs : ∀ c ∈ s, c = ',' ∨ c = ' ') : matchBuildingNumber s = none := by
  cases s with
  | nil => rfl
  | cons c rest =>
    have hdig : c.isDigit = false := by
      rcases hs c (List.mem_cons_self c rest) with h | h <;> subst h <;> rfl
    simp [matchBuildingNumber, List.takeWhile_cons, hdig]

/-- A string of commas and spaces carries no artificial-person marker. -/
theorem artificial_eq_false_of_commas (s : List Char)
    (hs : ∀ c ∈ s, c = ',' ∨ c = ' ') : is_for_artificial_person s = false := by
  have hl : ∀ c ∈ pyLower s, ¬(c = 'ю') := by
    intro c hcl
    rcases List.mem_map.mp hcl with ⟨d, hd, rfl⟩
    rcases hs d hd with h | h <;> subst h <;> decide
  have e1 : "юр. лица".data = 'ю' :: "р. лица".data := rfl
  have e2 : "юридические лица".data = 'ю' :: "ридические лица".data := rfl
  rw [is_for_artificial_person]
  rw [e1, e2, pyContains_eq_false_of_head_notin _ _ _ hl,
    pyContains_eq_false_of_head_notin _ _ _ hl]
  rfl

/-- Splitting an all-comma string yields only empty segments. -/
theorem splitCommaGo_filter_all_comma (s : List Char) (hs : ∀ c ∈ s, c = ',') :
    (splitCommaGo [] s).filter (fun seg => !seg.isEmpty) = [] := by
  induction s with
  | nil => rfl
  | cons c rest ih =>
    have hc := hs c (List.mem_cons_self c rest)
    subst hc
    have hrest : ∀ d ∈ rest, d = ',' := fun d hd => hs d (List.mem_cons_of_mem ',' hd)
    simp [splitCommaGo, ih hrest]

/-- Running the field list stops with `AttributeError` at the first field
name that has no strategy method, provided the earlier names all have one. -/
theorem runFields_error_at_unknown (f : String) (hf : fieldOfName f = none) :
    ∀ (pre post : List String) (conns : List Connection),
      (∀ g ∈ pre, (fieldOfName g).isSome = true) →
      runFields conns (pre ++ f :: post) =
        .error (.attributeError ("validate_" ++ f ++ "_field")) := by
  intro pre
  induction pre with
  | nil =>
    intro post conns _
    simp [runFields, validate_field, hf]
  | cons g pre ih =>
    intro post conns hpre
    have hg := hpre g (List.mem_cons_self g pre)
    rcases hg' : fieldOfName g with _ | fg
    · rw [hg'] at hg; simp at hg
    · simp only [List.cons_append, runFields, validate_field, hg']
      exact ih post _ (fun d hd => hpre d (List.mem_cons_of_mem _ hd))

/-- Rules whose patterns do not occur in the text are skipped by the
`TYPE_MAP` scan. -/
theorem scanTypeMap_append_of_none (pre rules : List (List String × String)) (s : List Char)
    (hpre : ∀ p ∈ pre, searchAlternation (p.1.map String.data) s = none) :
    scanTypeMap (pre ++ rules) s = scanTypeMap rules s := by
  induction pre with
  | nil => rfl
  | cons q pre ih =>
    have hq := hpre q (List.mem_cons_self q pre)
    rcases q with ⟨alts, label⟩
    simp only [List.cons_append, scanTypeMap]
    rw [hq]
    exact ih (fun p hp => hpre p (List.mem_cons_of_mem _ hp))

/-! Claim theorems. -/

/-- C1: the orchestrator's constructor accepts only the `fields` list — it
has no `pre_replacement_street_map` or `post_replacement_street_map` option,
and `validate_street_field` consults no replacement map; validating the
street `тест` through the full default pipeline yields `улица Тест` (the
default-typed, title-cased toponym), not the override `улица новая тестовая`
that the repository's own test `test_pre_validation_hook` expects. -/
theorem validator_has_no_street_replacement_maps :
    ConnectionValidator.validate_connections {}
        [⟨"test", "test", "тест", "test", "1", ""⟩] =
      .ok [⟨"test", "Test", "улица Тест", "test", "1", ""⟩] ∧
    validate_street_field "тест" = [.plain "улица Тест"] ∧
    "улица Тест" ≠ "улица новая тестовая" :=
  ⟨rfl, rfl, by decide⟩

/-- C2: a per-field pass never alters its input records: every output record
is produced from some parent record by the copy-with-override constructor at
the validated field (all other fields equal), except that in the
(value, callback) case — which arises only for the house field — the
status-update callback additionally rewrites the status of the new record,
leaving every field other than the validated one and status equal to the
parent's. -/
theorem validate_pass_copy_override_frame (f : FieldName) (conns : List Connection)
    (out : Connection) (hout : out ∈ validateFieldPass conns f) :
    ∃ c ∈ conns, ∃ v : String,
      (out = from_modified_connection c f v ∧
        ∀ g, g ≠ f → getField out g = getField c g) ∨
      (f = .house ∧
        out = status_update_callback (from_modified_connection c f v) ∧
        (∀ g, g ≠ f → g ≠ .status → getField out g = getField c g) ∧
        getField out .status = getField c .status ++ " (юридические лица)") := by
  rw [validateFieldPass, List.mem_flatMap] at hout
  obtain ⟨c, hc, hm⟩ := hout
  rw [List.mem_map] at hm
  obtain ⟨r, hr, happ⟩ := hm
  rcases strategy_shape f _ r hr with ⟨v, rfl⟩ | ⟨hf, v, rfl⟩
  · refine ⟨c, hc, v, Or.inl ⟨happ.symm, ?_⟩⟩
    intro g hg
    rw [← happ]
    exact getField_from_modified_of_ne c f v g hg
  · subst hf
    refine ⟨c, hc, v, Or.inr ⟨rfl, happ.symm, ?_, ?_⟩⟩
    · intro g hgf hgs
      rw [← happ]
      show getField (status_update_callback (from_modified_connection c .house v)) g =
        getField c g
      rw [getField_status_update_of_ne _ g hgs]
      exact getField_from_modified_of_ne c _ v g hgf
    · rw [← happ]
      rfl

/-- Witness for C2: the artificial-person pass on a single record yields the
derived record, and the frame property holds of it. -/
theorem validate_pass_copy_override_frame_witness :
    ((⟨"r", "c", "s", "p", "2", "Here I am (юридические лица)"⟩ : Connection) ∈
      validateFieldPass [⟨"r", "c", "s", "p", "2 ЮР. ЛИЦА", "Here I am"⟩] .house) ∧
    (∃ c ∈ [(⟨"r", "c", "s", "p", "2 ЮР. ЛИЦА", "Here I am"⟩ : Connection)], ∃ v : String,
      ((⟨"r", "c", "s", "p", "2", "Here I am (юридические лица)"⟩ : Connection) =
          from_modified_connection c .house v ∧
        ∀ g, g ≠ FieldName.house →
          getField ⟨"r", "c", "s", "p", "2", "Here I am (юридические лица)"⟩ g =
            getField c g) ∨
      (FieldName.house = .house ∧
        (⟨"r", "c", "s", "p", "2", "Here I am (юридические лица)"⟩ : Connection) =
          status_update_callback (from_modified_connection c .house v) ∧
        (∀ g, g ≠ FieldName.house → g ≠ FieldName.status →
          getField ⟨"r", "c", "s", "p", "2", "Here I am (юридические лица)"⟩ g =
            getField c g) ∧
        getField (⟨"r", "c", "s", "p", "2", "Here I am (юридические лица)"⟩ : Connection)
            .status =
          getField c .status ++ " (юридические лица)")) :=
  ⟨by decide, validate_pass_copy_override_frame .house _ _ (by decide)⟩

/-- C3: a purely decimal house string is returned unchanged as a singleton;
otherwise a house value matching the building-number pattern is reformatted
as `house_number (корпус building)`, as on the examples `8 к.4` and
`119, к.1`. -/
theorem validate_house_decimal_and_building :
    (∀ h : String, pyIsdecimal h.data = true → validate_house_field h = [.plain h]) ∧
    (∀ (h : String) (hn b : List Char), pyIsdecimal h.data = false →
      matchBuildingNumber h.data = some (hn, b) →
      validate_house_field h = [.plain ⟨hn ++ " (корпус ".data ++ b ++ [')']⟩]) ∧
    validate_house_field "8 к.4" = [.plain "8 (корпус 4)"] ∧
    validate_house_field "119, к.1" = [.plain "119 (корпус 1)"] := by
  refine ⟨fun h hd => ?_, fun h hn b hd hm => ?_, rfl, rfl⟩
  · simp [validate_house_field, hd]
  · simp [validate_house_field, hd, hm]

/-- Witness for C3: both hypothesis-bearing parts applied at concrete
inputs (`12` decimal, `29А` building-number). -/
theorem validate_house_decimal_and_building_witness :
    (pyIsdecimal "12".data = true ∧ validate_house_field "12" = [VResult.plain "12"]) ∧
    (pyIsdecimal "29А".data = false ∧
      matchBuildingNumber "29А".data = some ("29".data, "А".data) ∧
      validate_house_field "29А" = [VResult.plain "29 (корпус А)"]) :=
  ⟨⟨by decide, validate_house_decimal_and_building.1 "12" (by decide)⟩,
   ⟨by decide, by decide,
     validate_house_decimal_and_building.2.1 "29А" "29".data "А".data
       (by decide) (by decide)⟩⟩

/-- C4: a house value that reaches the artificial-person branch has the
marker text stripped and trimmed, and the single derived record carries the
stripped house together with the status suffix `SP(юридические лица)`
appended by the callback to the new record's status. -/
theorem validate_house_artificial_person (c : Connection)
    (h1 : pyIsdecimal c.house.data = false)
    (h2 : matchBuildingNumber c.house.data = none)
    (h3 : is_for_artificial_person c.house.data = true) :
    validate_house_field c.house =
      [.withCallback ⟨pyStrip (pyReplace "юр. лица".data []
          (pyReplace "ЮР. ЛИЦА".data []
            (pyReplace "(юридические лица)".data [] c.house.data)))⟩
        status_update_callback] ∧
    validateFieldPass [c] .house =
      [{ c with
          house := ⟨pyStrip (pyReplace "юр. лица".data []
            (pyReplace "ЮР. ЛИЦА".data []
              (pyReplace "(юридические лица)".data [] c.house.data)))⟩,
          status := c.status ++ " (юридические лица)" }] := by
  have hh : validate_house_field c.house =
      [.withCallback ⟨pyStrip (pyReplace "юр. лица".data []
          (pyReplace "ЮР. ЛИЦА".data []
            (pyReplace "(юридические лица)".data [] c.house.data)))⟩
        status_update_callback] := by
    simp [validate_house_field, h1, h2, h3]
  refine ⟨hh, ?_⟩
  simp [validateFieldPass, strategyFor, getField, hh, applyResult,
    from_modified_connection, status_update_callback]

/-- Witness for C4: the claim's example — house `2 ЮР. ЛИЦА`, status
`Here I am` — yields exactly one record with house `2` and the suffixed
status. -/
theorem validate_house_artificial_person_witness :
    pyIsdecimal "2 ЮР. ЛИЦА".data = false ∧
    matchBuildingNumber "2 ЮР. ЛИЦА".data = none ∧
    is_for_artificial_person "2 ЮР. ЛИЦА".data = true ∧
    validateFieldPass [⟨"test", "test", "test", "test", "2 ЮР. ЛИЦА", "Here I am"⟩]
        .house =
      [⟨"test", "test", "test", "test", "2", "Here I am (юридические лица)"⟩] :=
  ⟨by decide, by decide, by decide,
    (validate_house_artificial_person
      ⟨"test", "test", "test", "test", "2 ЮР. ЛИЦА", "Here I am"⟩
      (by decide) (by decide) (by decide)).2⟩

/-- C5 counterexample: the comma branch removes only space characters, it
does not strip other whitespace from the segments — on `1,2,TAB3` the code
keeps the tab and yields the segment `TAB3`, where the claim (stripping
whitespace from each segment) predicts `3`. -/
theorem house_comma_split_counterexample :
    validateFieldPass [⟨"r", "c", "s", "p", "1,2,\t3", "st"⟩] .house =
      [⟨"r", "c", "s", "p", "1", "st"⟩, ⟨"r", "c", "s", "p", "2", "st"⟩,
       ⟨"r", "c", "s", "p", "\t3", "st"⟩] ∧
    ([⟨"r", "c", "s", "p", "1", "st"⟩, ⟨"r", "c", "s", "p", "2", "st"⟩,
      (⟨"r", "c", "s", "p", "\t3", "st"⟩ : Connection)] ≠
     [⟨"r", "c", "s", "p", "1", "st"⟩, ⟨"r", "c", "s", "p", "2", "st"⟩,
      ⟨"r", "c", "s", "p", "3", "st"⟩]) :=
  ⟨rfl, by decide⟩

/-- C5 amended: on the comma branch the code removes every space character
(U+0020 only, including spaces inside segments; other whitespace is kept),
splits on commas and discards empty segments, fanning the record out; the
examples `20,30, 40` and the trailing-comma variant yield
`20`, `30`, `40`. -/
theorem house_comma_split_amended :
    (∀ h : String, pyIsdecimal h.data = false → matchBuildingNumber h.data = none →
      is_for_artificial_person h.data = false → pyContains [','] h.data = true →
      validate_house_field h =
        (((h.data.filter (fun c => ¬(c = ' '))).splitOn ',').filter
            (fun seg => !seg.isEmpty)).map (fun seg => VResult.plain ⟨seg⟩)) ∧
    validate_house_field "20,30, 40" = [.plain "20", .plain "30", .plain "40"] ∧
    validate_house_field "20,30,40," = [.plain "20", .plain "30", .plain "40"] := by
  refine ⟨fun h h1 h2 h3 h4 => ?_, rfl, rfl⟩
  simp only [validate_house_field, h1, h2, h3, h4, Bool.false_eq_true, if_false,
    if_true]
  rw [pyReplace_single_eq_filter, pySplitComma_eq_splitOn]

/-- Witness for C5: the amended branch formula applied at the claim's
example `20,30, 40`. -/
theorem house_comma_split_amended_witness :
    pyIsdecimal "20,30, 40".data = false ∧
    matchBuildingNumber "20,30, 40".data = none ∧
    is_for_artificial_person "20,30, 40".data = false ∧
    pyContains [','] "20,30, 40".data = true ∧
    validate_house_field "20,30, 40" =
      ((("20,30, 40".data.filter (fun c => ¬(c = ' '))).splitOn ',').filter
          (fun seg => !seg.isEmpty)).map (fun seg => VResult.plain ⟨seg⟩) :=
  ⟨by decide, by decide, by decide, by decide,
    house_comma_split_amended.1 "20,30, 40" (by decide) (by decide) (by decide)
      (by decide)⟩

/-- C6 counterexample: when the city ends with `SPп` the code removes every
occurrence of `SPп`, not only the trailing one — on `а п б п` it yields
`А Б`, where the claim (trailing suffix only) predicts `А П Б`. -/
theorem city_trailing_suffix_counterexample :
    validate_city_field "а п б п" = [.plain "А Б"] ∧ "А Б" ≠ "А П Б" :=
  ⟨rfl, by decide⟩

/-- C6 amended: for every city ending with `SPп`, the code removes all
occurrences of `SPп`, then removes each exclusion-list entry in order,
title-cases, trims and returns a singleton; abbreviation removal and
idempotence hold on the claim's examples. -/
theorem city_validation_amended :
    (∀ city : String, pyEndswith city.data " п".data = true →
      validate_city_field city =
        [.plain ⟨pyStrip (pyTitle (pyLower (CITY_PARTS_TO_EXCLUDE.foldl
          (fun c part => if pyContains part.data c then pyReplace part.data [] c else c)
          (pyReplace " п".data [] city.data))))⟩]) ∧
    validate_city_field "Хотимск г.п." = [.plain "Хотимск"] ∧
    validate_city_field "Сенница" = [.plain "Сенница"] := by
  refine ⟨fun city hc => ?_, rfl, rfl⟩
  simp [validate_city_field, hc]

/-- Witness for C6: the amended " п"-branch formula applied at
`САМОХВАЛОВИЧИ п`, which normalizes to `Самохваловичи`. -/
theorem city_validation_amended_witness :
    pyEndswith "САМОХВАЛОВИЧИ п".data " п".data = true ∧
    validate_city_field "САМОХВАЛОВИЧИ п" = [VResult.plain "Самохваловичи"] :=
  ⟨by decide, city_validation_amended.1 "САМОХВАЛОВИЧИ п" (by decide)⟩

/-- C7 counterexample: on a match the parser removes every occurrence of the
matched text, not only the matched span — on `ул. ул. Ленина` both `ул.`
occurrences are removed, giving name `Ленина`, where the claim (remove only
the matched span) predicts `ул. Ленина`. -/
theorem toponym_extract_span_counterexample :
    extract_type_and_name "ул. ул. Ленина".data = (some "улица", "Ленина".data) ∧
    "Ленина".data ≠ "ул. Ленина".data :=
  ⟨rfl, by decide⟩

/-- C7 amended: for a street string (not manually overridden) the ordered
case-insensitive rule scan lets the first matching rule win; every occurrence
of the exact matched text is removed from the raw string, the remainder is
trimmed, and the rule's type label is returned with it. -/
theorem toponym_extract_amended (s : List Char) (pre post : List (List String × String))
    (alts : List String) (label : String) (t : List Char)
    (hmap : TYPE_MAP = pre ++ (alts, label) :: post)
    (hpre : ∀ p ∈ pre, searchAlternation (p.1.map String.data) s = none)
    (ht : searchAlternation (alts.map String.data) s = some t) :
    extract_type_and_name s = (some label, pyStrip (pyReplace t [] s)) := by
  rw [extract_type_and_name, hmap, scanTypeMap_append_of_none pre _ s hpre]
  simp only [scanTypeMap, ht]

/-- Witness for C7: the street rule (seventh in `TYPE_MAP`) wins on
`ЛЕНИНА УЛ.` with matched text `УЛ.`, the first six rules not matching, and
extraction returns type `улица` with trimmed name `ЛЕНИНА`. -/
theorem toponym_extract_amended_witness :
    (∀ p ∈ ([(["прз.", "пр-д", "проезд"], "проезд"),
        (["пос.", "поселок"], "поселок"),
        (["мр-н", "микрорайон"], "микрорайон"),
        (["а/г"], "агрогородок"),
        (["переулок", "пер."], "переулок"),
        (["б-р", "бул.", "бульвар"], "бульвар")] : List (List String × String)),
      searchAlternation (p.1.map String.data) "ЛЕНИНА УЛ.".data = none) ∧
    searchAlternation ((["ул,", ", ул.", ", ул", "ул.", "улица"].map String.data))
      "ЛЕНИНА УЛ.".data = some "УЛ.".data ∧
    extract_type_and_name "ЛЕНИНА УЛ.".data = (some "улица", "ЛЕНИНА".data) :=
  ⟨by decide, by decide,
    toponym_extract_amended "ЛЕНИНА УЛ.".data
      [(["прз.", "пр-д", "проезд"], "проезд"),
       (["пос.", "поселок"], "поселок"),
       (["мр-н", "микрорайон"], "микрорайон"),
       (["а/г"], "агрогородок"),
       (["переулок", "пер."], "переулок"),
       (["б-р", "бул.", "бульвар"], "бульвар")]
      [(["проспект", "пр-кт", "пр-т", "пр."], "проспект")]
      ["ул,", ", ул.", ", ул", "ул.", "улица"] "улица" "УЛ.".data
      rfl (by decide) (by decide)⟩

/-- C8: building a toponym is total (the embedding is a total function on
all strings) and its resolved type is never `none` after construction; when
no manual override applies and no type pattern matches, the configured
default type is used. -/
theorem toponym_type_never_none (s d : String) :
    (Toponym.build s d).type.isSome = true ∧
    (lookupManual s = none → (extract_type_and_name s.data).1 = none →
      (Toponym.build s d).type = some d) := by
  constructor
  · rw [Toponym.build, Toponym.tokenize]
    rcases h : lookupManual s with _ | ⟨t, n⟩
    · rcases he : (extract_type_and_name s.data).1 with _ | t' <;> simp [he]
    · simp
  · intro hm he
    rw [Toponym.build, Toponym.tokenize, hm]
    simp [he]

/-- Witness for C8: on `ленина` (no manual override, no matching rule) the
type is the supplied default `улица`. -/
theorem toponym_type_never_none_witness :
    (Toponym.build "ленина" "улица").type.isSome = true ∧
    (Toponym.build "ленина" "улица").type = some "улица" :=
  ⟨(toponym_type_never_none "ленина" "улица").1,
   (toponym_type_never_none "ленина" "улица").2 (by decide) (by decide)⟩

/-- C9 counterexample: with the field list `[house, foo]` the pipeline fails
with `AttributeError` for the missing method `validate_foo_field` — which is
a different exception from the `ConfigurationError` the claim names (no
`ConfigurationError` exists in the repository). -/
theorem unknown_field_error_counterexample :
    ConnectionValidator.validate_connections ⟨["house", "foo"]⟩
        [⟨"r", "c", "s", "p", "1", "st"⟩] =
      .error (.attributeError "validate_foo_field") ∧
    PyError.attributeError "validate_foo_field" ≠
      PyError.configurationError "no strategy found for field foo" :=
  ⟨rfl, by decide⟩

/-- C9 amended: if the configured field list contains a name with no
validation strategy (all earlier and later names having one),
`validate_connections` fails with `AttributeError` for the missing
`validate_{field}_field` method when processing that field. -/
theorem unknown_field_attribute_error (v : ConnectionValidator)
    (conns : List Connection) (pre post : List String) (f : String)
    (hv : v.fields = pre ++ f :: post)
    (hf : fieldOfName f = none)
    (hpre : ∀ g ∈ pre, (fieldOfName g).isSome = true)
    (_hpost : ∀ g ∈ post, (fieldOfName g).isSome = true) :
    v.validate_connections conns =
      .error (.attributeError ("validate_" ++ f ++ "_field")) := by
  rw [ConnectionValidator.validate_connections, hv]
  exact runFields_error_at_unknown f hf pre post conns hpre

/-- Witness for C9: the field list `[house, foo, status]` with records absent
still fails with `AttributeError` on `foo`. -/
theorem unknown_field_attribute_error_witness :
    fieldOfName "foo" = none ∧
    ConnectionValidator.validate_connections ⟨["house", "foo", "status"]⟩ [] =
      .error (.attributeError "validate_foo_field") :=
  ⟨by decide,
    unknown_field_attribute_error ⟨["house", "foo", "status"]⟩ [] ["house"]
      ["status"] "foo" rfl (by decide) (by decide) (by decide)⟩

/-- C10 counterexample: the claimed class — non-decimal values whose
comma-split segments are all empty after whitespace removal — is too wide:
on `TAB,` the code removes only spaces, keeps the tab segment and yields one
record instead of dropping the input. -/
theorem house_drop_class_counterexample :
    validateFieldPass [⟨"r", "c", "s", "p", "\t,", "st"⟩] .house =
      [⟨"r", "c", "s", "p", "\t", "st"⟩] ∧
    ([(⟨"r", "c", "s", "p", "\t", "st"⟩ : Connection)] ≠ ([] : List Connection)) :=
  ⟨rfl, by decide⟩

/-- C10 amended: for every house value made of commas and spaces only and
containing a comma (equivalently: non-decimal, with every comma-split
segment empty after removing space characters), `validate_house_field`
returns the empty list, and the per-field pass yields no record for such an
input record — the record is silently dropped. -/
theorem house_record_dropped_amended (h : String)
    (hchars : ∀ c ∈ h.data, c = ',' ∨ c = ' ') (hcomma : ',' ∈ h.data) :
    validate_house_field h = [] ∧
    ∀ c : Connection, c.house = h → validateFieldPass [c] .house = [] := by
  have hmain : validate_house_field h = [] := by
    have hfilter : ∀ d ∈ h.data.filter (fun c => ¬(c = ' ')), d = ',' := by
      intro d hd
      rcases List.mem_filter.mp hd with ⟨hmem, hds⟩
      rcases hchars d hmem with h' | h'
      · exact h'
      · exact absurd h' (by simpa using hds)
    simp only [validate_house_field, pyIsdecimal_eq_false_of_comma_mem h.data hcomma,
      matchBuildingNumber_eq_none_of_commas h.data hchars,
      artificial_eq_false_of_commas h.data hchars,
      pyContains_single_of_mem ',' h.data hcomma, Bool.false_eq_true, if_false, if_true]
    rw [pyReplace_single_eq_filter]
    rw [show pySplitComma (h.data.filter (fun c => ¬(c = ' '))) =
        splitCommaGo [] (h.data.filter (fun c => ¬(c = ' '))) from rfl]
    rw [splitCommaGo_filter_all_comma _ hfilter]
    rfl
  refine ⟨hmain, fun c hch => ?_⟩
  simp [validateFieldPass, strategyFor, getField, hch, hmain]

/-- Witness for C10: the input `,` produces no strategy result and the
record carrying it is dropped by the house pass. -/
theorem house_record_dropped_amended_witness :
    validate_house_field "," = [] ∧
    validateFieldPass [⟨"r2", "c2", "s2", "p2", ",", "st2"⟩] .house = [] :=
  ⟨(house_record_dropped_amended "," (by decide) (by decide)).1,
   (house_record_dropped_amended "," (by decide) (by decide)).2
     ⟨"r2", "c2", "s2", "p2", ",", "st2"⟩ rfl⟩

end IspCoverage
